import Mathlib

/-!
Verification development for a voice-assistant decision pipeline:
a rule-based intent classifier, a hybrid cascade with a semantic
fallback, a confidence-gated policy layer, a capability registry,
and an execution controller.  Definitions are shallow embeddings of
the corresponding Python functions; theorems settle the spec claims.
-/

/- `Rat.add` is `@[irreducible]` upstream; restore default
reducibility locally so that concrete score computations evaluate
with `decide`. -/
attribute [local semireducible] Rat.add

namespace Assistant

/-- The closed enumeration of intents, in the order of declaration of
the Python `Intent(str, Enum)` (this order is the enumeration order
used by the classifier's scoring loop). -/
inductive Intent where
  | OPEN_APP
  | CLOSE_APP
  | SEARCH_WEB
  | PLAY_MUSIC
  | STOP_MUSIC
  | GET_TIME
  | GET_DATE
  | SYSTEM_INFO
  | GREETING
  | EXIT
  | PLAY_YOUTUBE
  | SEARCH_YOUTUBE
  | UNKNOWN
deriving DecidableEq, Repr

open Intent

/-- All intents in enumeration (declaration) order, as iterated by
`for intent in Intent` in Python. -/
def intentList : List Intent :=
  [OPEN_APP, CLOSE_APP, SEARCH_WEB, PLAY_MUSIC, STOP_MUSIC, GET_TIME,
   GET_DATE, SYSTEM_INFO, GREETING, EXIT, PLAY_YOUTUBE, SEARCH_YOUTUBE,
   UNKNOWN]

/-- Position of an intent in the enumeration order. -/
def intentIdx : Intent → Nat
  | OPEN_APP => 0
  | CLOSE_APP => 1
  | SEARCH_WEB => 2
  | PLAY_MUSIC => 3
  | STOP_MUSIC => 4
  | GET_TIME => 5
  | GET_DATE => 6
  | SYSTEM_INFO => 7
  | GREETING => 8
  | EXIT => 9
  | PLAY_YOUTUBE => 10
  | SEARCH_YOUTUBE => 11
  | UNKNOWN => 12

/-- The string value of each intent (the Python enum member value). -/
def intentValue : Intent → String
  | OPEN_APP => "OPEN_APP"
  | CLOSE_APP => "CLOSE_APP"
  | SEARCH_WEB => "SEARCH_WEB"
  | PLAY_MUSIC => "PLAY_MUSIC"
  | STOP_MUSIC => "STOP_MUSIC"
  | GET_TIME => "GET_TIME"
  | GET_DATE => "GET_DATE"
  | SYSTEM_INFO => "SYSTEM_INFO"
  | GREETING => "GREETING"
  | EXIT => "EXIT"
  | PLAY_YOUTUBE => "PLAY_YOUTUBE"
  | SEARCH_YOUTUBE => "SEARCH_YOUTUBE"
  | UNKNOWN => "UNKNOWN"

/-- Risk levels from `core/risk.py`. -/
inductive RiskLevel where
  | LOW
  | MEDIUM
  | HIGH
  | CRITICAL
deriving DecidableEq, Repr

/-- A capability-registry entry, from `core/capability_registry.py`.
The optional fields model the per-intent `allowed_apps` /
`allowed_processes` keys that only some entries carry. -/
structure Capability where
  risk : RiskLevel
  requires_confirmation : Bool
  description : String
  executable : Bool
  allowed_apps : Option (List (String × String)) := none
  allowed_processes : Option (List String) := none
deriving DecidableEq, Repr

/-- `ALLOWED_APPS`: allowed applications for OPEN_APP and CLOSE_APP,
mapping spoken app name to executable name. -/
def ALLOWED_APPS : List (String × String) :=
  [("firefox", "firefox"),
   ("chrome", "google-chrome"),
   ("code", "code"),
   ("terminal", "gnome-terminal"),
   ("vscode", "code"),
   ("browser", "firefox")]

/-- `ALLOWED_PROCESSES`: allowed processes for system control. -/
def ALLOWED_PROCESSES : List String :=
  ["firefox", "chrome", "code", "gnome-terminal"]

/-- Association-list lookup modelling Python `dict.get` /
`dict[key]` returning `none` when the key is absent. -/
def alookup {α β : Type} [DecidableEq α] (key : α) :
    List (α × β) → Option β
  | [] => none
  | (k, v) :: rest => if k = key then some v else alookup key rest

/-- The capability registry `CAPABILITIES`, keyed by intent, entry by
entry as in the source dict literal. -/
def CAPABILITIES : List (Intent × Capability) :=
  [(OPEN_APP,
    { risk := RiskLevel.LOW, requires_confirmation := false,
      allowed_apps := some ALLOWED_APPS,
      description := "Open an application", executable := true }),
   (CLOSE_APP,
    { risk := RiskLevel.HIGH, requires_confirmation := true,
      allowed_processes := some ALLOWED_PROCESSES,
      description := "Close an application", executable := true }),
   (SEARCH_WEB,
    { risk := RiskLevel.MEDIUM, requires_confirmation := false,
      description := "Search the web", executable := true }),
   (PLAY_MUSIC,
    { risk := RiskLevel.MEDIUM, requires_confirmation := false,
      description := "Play music", executable := true }),
   (STOP_MUSIC,
    { risk := RiskLevel.LOW, requires_confirmation := false,
      description := "Stop music playback", executable := true }),
   (GET_TIME,
    { risk := RiskLevel.LOW, requires_confirmation := false,
      description := "Get current time", executable := true }),
   (GET_DATE,
    { risk := RiskLevel.LOW, requires_confirmation := false,
      description := "Get current date", executable := true }),
   (SYSTEM_INFO,
    { risk := RiskLevel.MEDIUM, requires_confirmation := false,
      description := "Show system information", executable := true }),
   (GREETING,
    { risk := RiskLevel.LOW, requires_confirmation := false,
      description := "Respond to greeting", executable := true }),
   (EXIT,
    { risk := RiskLevel.LOW, requires_confirmation := false,
      description := "Exit assistant", executable := true }),
   (UNKNOWN,
    { risk := RiskLevel.LOW, requires_confirmation := false,
      description := "Unknown intent", executable := false })]

/-- `validate_capability`: true iff the intent has a registry entry
whose `executable` flag is true. -/
def validate_capability (intent : Intent) : Bool :=
  match alookup intent CAPABILITIES with
  | none => false
  | some cap => cap.executable

/-- `get_capability`: registry lookup; `none` models the Python
`KeyError` raised when the intent has no entry. -/
def get_capability (intent : Intent) : Option Capability :=
  alookup intent CAPABILITIES

/-- `requires_confirmation`: false for unregistered intents rather
than failing (`CAPABILITIES.get(intent, {}).get(..., False)`). -/
def requires_confirmation (intent : Intent) : Bool :=
  match alookup intent CAPABILITIES with
  | none => false
  | some cap => cap.requires_confirmation

/-! String primitives modelling the Python `str` operations used by
the classifier: `lower`, `strip`, `split`, substring containment
(`in`), `startswith` and `replace`. -/

/-- Whitespace test for `strip`/`split` (ASCII whitespace). -/
def isWS (c : Char) : Bool :=
  c = ' ' || c = '\t' || c = '\n' || c = '\r'

/-- ASCII lower-casing of one character (`str.lower` on the inputs of
interest). -/
def asciiLower (c : Char) : Char :=
  if 'A' ≤ c && c ≤ 'Z' then Char.ofNat (c.toNat + 32) else c

/-- `str.lower`. -/
def pyLower (l : List Char) : List Char := l.map asciiLower

/-- `str.strip`: drop whitespace from both ends. -/
def pyStrip (l : List Char) : List Char :=
  ((l.dropWhile isWS).reverse.dropWhile isWS).reverse

/-- Helper for `pyStrip` over `String`. -/
def pyStripS (s : String) : String := ⟨pyStrip s.data⟩

/-- Worker for `str.split()`: accumulate the current word (reversed)
and cut at whitespace, dropping empty pieces. -/
def splitWSAux : List Char → List Char → List (List Char)
  | [], acc => if acc.isEmpty then [] else [acc.reverse]
  | c :: rest, acc =>
    if isWS c then
      if acc.isEmpty then splitWSAux rest []
      else acc.reverse :: splitWSAux rest []
    else splitWSAux rest (c :: acc)

/-- `str.split()` with no separator: split on whitespace runs. -/
def splitWS (l : List Char) : List (List Char) := splitWSAux l []

/-- Python `needle in hay`: substring containment. -/
def containsSub (needle : List Char) : List Char → Bool
  | [] => needle.isEmpty
  | c :: rest => needle.isPrefixOf (c :: rest) || containsSub needle rest

/-- Substring containment over `String`s. -/
def containsSubS (needle hay : String) : Bool :=
  containsSub needle.data hay.data

/-- Worker for `str.replace(pat, rep)`: replace non-overlapping
occurrences left to right.  The `fuel` argument is an upper bound on
the length of the remaining text and only serves to make the
recursion structural; the `0` case with a non-empty text is
unreachable when `fuel ≥ s.length`. -/
def pyReplaceGo (pat rep : List Char) : Nat → List Char → List Char
  | _, [] => []
  | 0, s => s
  | fuel + 1, c :: rest =>
    match pat with
    | [] => c :: rest
    | p :: ps =>
      if (p :: ps).isPrefixOf (c :: rest) then
        rep ++ pyReplaceGo pat rep fuel (rest.drop ps.length)
      else
        c :: pyReplaceGo pat rep fuel rest

/-- `str.replace(pat, rep)`.  Every call site uses a non-empty
`pat`; for `pat = []` the text is returned unchanged (that case never
arises in the embedded code). -/
def pyReplace (pat rep s : List Char) : List Char :=
  pyReplaceGo pat rep s.length s

/-! The rule-based classifier (`intelligence/classifier.py`) and its
static tables (`intelligence/intents.py`). -/

/-- `INTENT_PATTERNS`: keywords that trigger each intent.  Intents
absent from the Python dict (`PLAY_MUSIC`, `UNKNOWN`) get `[]`, as
`INTENT_PATTERNS.get(intent, [])` does. -/
def INTENT_PATTERNS : Intent → List String
  | OPEN_APP => ["open", "launch", "start", "run"]
  | CLOSE_APP => ["close", "quit", "exit", "kill", "stop"]
  | SEARCH_WEB => ["search", "google", "look up", "find"]
  | PLAY_MUSIC => []
  | STOP_MUSIC => ["stop", "pause", "halt"]
  | GET_TIME => ["time", "what time", "current time"]
  | GET_DATE => ["date", "what date", "today", "current date"]
  | SYSTEM_INFO => ["system", "info", "status", "cpu", "memory", "disk"]
  | GREETING => ["hello", "hi", "hey", "greetings"]
  | EXIT => ["exit", "quit", "goodbye", "bye", "stop"]
  | PLAY_YOUTUBE => ["play", "youtube", "video", "song", "music"]
  | SEARCH_YOUTUBE => ["search", "youtube", "find", "video"]
  | UNKNOWN => []

/-- `KNOWN_APPS`: common app names for slot extraction. -/
def KNOWN_APPS : List String :=
  ["firefox", "chrome", "code", "terminal", "spotify",
   "slack", "discord", "vscode", "browser"]

/-- `words and words[0] in opts`: the first word equals one of the
given options. -/
def headIs (words : List (List Char)) (opts : List String) : Bool :=
  match words with
  | [] => false
  | w :: _ => opts.any (fun o => o.data = w)

/-- The base keyword-matching loop of `_score_intent`: 0.3 per keyword
found as a standalone word (space-padded match), 0.1 if found only as
a substring. -/
def keywordScore (text : List Char) (kws : List String) : ℚ :=
  kws.foldl
    (fun acc kw =>
      if containsSub kw.data text then
        if containsSub (' ' :: (kw.data ++ [' '])) (' ' :: (text ++ [' '])) then
          acc + mkRat 3 10
        else
          acc + mkRat 1 10
      else acc) 0

/-- `_score_intent`: base keyword score plus the intent-specific
weighted boosts, exactly as in the per-intent branches. -/
def score_intent (text : List Char) (words : List (List Char))
    (intent : Intent) : ℚ :=
  let base := keywordScore text (INTENT_PATTERNS intent)
  match intent with
  | OPEN_APP =>
      base
      + (if headIs words ["open", "launch"] then mkRat 1 2 else 0)
      + (if KNOWN_APPS.any (fun app => containsSub app.data text) then mkRat 3 10 else 0)
      + (if words.length ≤ 4 then mkRat 1 5 else 0)
  | CLOSE_APP =>
      base
      + (if headIs words ["close", "quit", "exit", "kill"] then mkRat 2 5 else 0)
      + (if KNOWN_APPS.any (fun app => containsSub app.data text) then mkRat 3 10 else 0)
      + (if words.length ≤ 4 then mkRat 1 5 else 0)
  | SEARCH_WEB =>
      base
      + (if headIs words ["search", "google", "find"] then mkRat 2 5 else 0)
      + (if containsSub " for ".data text then mkRat 1 5 else 0)
  | GET_TIME =>
      base
      + (if "what".data.isPrefixOf text then mkRat 3 10 else 0)
      + (if containsSub "is".data text then mkRat 1 5 else 0)
  | GET_DATE =>
      base
      + (if "what".data.isPrefixOf text then mkRat 3 10 else 0)
      + (if containsSub "is".data text then mkRat 1 5 else 0)
  | STOP_MUSIC =>
      base
      + (if headIs words ["stop", "pause"] then mkRat 2 5 else 0)
  | PLAY_YOUTUBE =>
      base
      + (if headIs words ["play", "start", "put"] then mkRat 3 5 else 0)
      + (if 3 ≤ words.length then mkRat 3 10 else 0)
      + (if containsSub "by".data text then mkRat 1 5 else 0)
  | SYSTEM_INFO =>
      base
      + (if containsSub "system".data text || containsSub "status".data text
         then mkRat 2 5 else 0)
      + (if ["cpu", "memory", "disk", "info"].any
            (fun w => containsSub w.data text) then mkRat 3 10 else 0)
  | GREETING =>
      base
      + (if headIs words ["hello", "hi", "hey"] then mkRat 3 5 else 0)
      + (if words.length ≤ 3 then mkRat 3 10 else 0)
  | EXIT =>
      base
      + (if headIs words ["exit", "quit", "goodbye", "bye"] then mkRat 3 5 else 0)
      + (if containsSub "stop".data text
            && (["listening", "assistant"].any (fun w => containsSub w.data text))
         then mkRat 3 10 else 0)
  | _ => base

/-- Strip a list of trigger phrases from the text by sequential
`str.replace(trigger, "")`, then `strip()` the remainder. -/
def stripTriggers (triggers : List String) (text : List Char) : List Char :=
  pyStrip (triggers.foldl (fun q trig => pyReplace trig.data [] q) text)

/-- Trigger phrases removed for the SEARCH_WEB query slot. -/
def searchWebTriggers : List String :=
  ["search", "google", "look up", "find", "for"]

/-- Trigger phrases removed for the YouTube query slot; note the bare
single-letter trigger "a" at the end. -/
def youtubeTriggers : List String :=
  ["play", "start", "put on", "search", "on youtube", "youtube",
   "video", "please", "can you", "could you", "find", "for", "a"]

/-- The app-name block of `_extract_slots`: for OPEN_APP/CLOSE_APP,
the first known app found in the text. -/
def appNameSlot (text : List Char) (intent : Intent) :
    List (String × String) :=
  if intent = OPEN_APP ∨ intent = CLOSE_APP then
    match KNOWN_APPS.find? (fun app => containsSub app.data text) with
    | some app => [("app_name", app)]
    | none => []
  else []

/-- The SEARCH_WEB query block of `_extract_slots`: strip the web
trigger words; keep the query only when non-empty. -/
def webQuerySlot (text : List Char) (intent : Intent) :
    List (String × String) :=
  if intent = SEARCH_WEB then
    if (stripTriggers searchWebTriggers text).isEmpty then []
    else [("query", (⟨stripTriggers searchWebTriggers text⟩ : String))]
  else []

/-- The YouTube query block of `_extract_slots`: strip the YouTube
trigger phrases; keep the query only when non-empty. -/
def ytQuerySlot (text : List Char) (intent : Intent) :
    List (String × String) :=
  if intent = PLAY_YOUTUBE ∨ intent = SEARCH_YOUTUBE then
    if (stripTriggers youtubeTriggers text).isEmpty then []
    else [("query", (⟨stripTriggers youtubeTriggers text⟩ : String))]
  else []

/-- `_extract_slots`: the three sequential slot-filling blocks (their
guards are mutually exclusive, so the dict union is a concatenation). -/
def extract_slots (text : List Char) (intent : Intent) :
    List (String × String) :=
  appNameSlot text intent ++ webQuerySlot text intent ++ ytQuerySlot text intent

/-- Result of intent classification (`IntentResult`). -/
structure IntentResult where
  intent : Intent
  confidence : ℚ
  slots : List (String × String)
  raw_text : String
deriving DecidableEq, Repr

/-- Python `max(d, key=d.get)` over the scores: keep the current
best, replacing it only when a later value is strictly greater — so
the first key attaining the maximum wins. -/
def maxGo (p : Intent × ℚ) : List (Intent × ℚ) → Intent × ℚ
  | [] => p
  | q :: rest => if p.2 < q.2 then maxGo q rest else maxGo p rest

/-- `max` over a possibly-empty association list of scores. -/
def maxByFirst : List (Intent × ℚ) → Option (Intent × ℚ)
  | [] => none
  | p :: rest => some (maxGo p rest)

/-- The scores dict of `classify`: iterate intents in enumeration
order, skip UNKNOWN, keep strictly positive scores. -/
def scoresList (text : List Char) (words : List (List Char)) :
    List (Intent × ℚ) :=
  ((intentList.filter (fun i => decide (i ≠ UNKNOWN))).filter
      (fun i => decide (0 < score_intent text words i))).map
    (fun i => (i, score_intent text words i))

/-- `normalized = text.lower().strip()` in `classify`. -/
def normalizedOf (text : String) : List Char := pyStrip (pyLower text.data)

/-- `words = normalized.split()` in `classify`. -/
def wordsOf (text : String) : List (List Char) := splitWS (normalizedOf text)

/-- The scores dict built by `classify` for the given input text. -/
def scoresOf (text : String) : List (Intent × ℚ) :=
  scoresList (normalizedOf text) (wordsOf text)

/-- `classify`: normalize, score every non-UNKNOWN intent, pick the
best-scoring intent (first in enumeration order on ties), clamp to
1.0, return UNKNOWN when nothing scored or the confidence is below
the 0.4 floor, otherwise extract slots. -/
def classify (text : String) : IntentResult :=
  match maxByFirst (scoresOf text) with
  | none => ⟨UNKNOWN, 0, [], text⟩
  | some (best, s) =>
    let confidence := min s 1
    if confidence < mkRat 2 5 then ⟨UNKNOWN, confidence, [], text⟩
    else ⟨best, confidence, extract_slots (normalizedOf text) best, text⟩

/-- The best raw (unclamped) score of `classify` on the given text,
`0` when no intent scored above zero. -/
def bestScore (text : String) : ℚ :=
  match maxByFirst (scoresOf text) with
  | none => 0
  | some p => p.2

/-! The policy layer (`intelligence/policy.py`). -/

/-- `slots.get(key, default)`. -/
def slotGetD (slots : List (String × String)) (k d : String) : String :=
  (alookup k slots).getD d

/-- `get_action_description`: human-readable action phrase for the
detected intent and slots. -/
def get_action_description (r : IntentResult) : String :=
  match r.intent with
  | OPEN_APP => "open " ++ slotGetD r.slots "app_name" "an application"
  | CLOSE_APP => "close " ++ slotGetD r.slots "app_name" "an application"
  | SEARCH_WEB => "search for " ++ slotGetD r.slots "query" "something"
  | STOP_MUSIC => "stop music"
  | GET_TIME => "tell you the time"
  | GET_DATE => "tell you the date"
  | SYSTEM_INFO => "show system information"
  | GREETING => "greet you"
  | EXIT => "exit"
  | PLAY_YOUTUBE => "play " ++ slotGetD r.slots "query" "a video" ++ " on YouTube"
  | SEARCH_YOUTUBE => "search YouTube for " ++ slotGetD r.slots "query" "something"
  | _ => "do something"

/-- `decide_action`: confidence-gated routing to reject / confirm /
execute.  Returns (response text, should_execute). -/
def decide_action (r : IntentResult) : String × Bool :=
  if r.intent = UNKNOWN then
    ("I did not understand that. Could you repeat?", false)
  else if r.confidence < mkRat 3 5 then
    ("I\x27m not sure what you said. Please repeat.", false)
  else if r.confidence < mkRat 3 4 then
    ("Did you want me to " ++ get_action_description r ++ "?", false)
  else
    ("Intent detected: " ++ intentValue r.intent, true)

/-! The hybrid cascade (`intelligence/hybrid_classifier.py`).  The
semantic matcher is an embedding-model-backed collaborator; it enters
the embedding as an explicit function parameter
`semantic_match : String → Intent × ℚ`. -/

/-- The result dict of `classify_hybrid`. -/
structure HybridOutcome where
  rule_intent : String
  rule_confidence : ℚ
  semantic_intent : Option String
  semantic_similarity : Option ℚ
  decision_source : String
  intent_result : IntentResult
deriving DecidableEq, Repr

/-- `classify_hybrid`: rule result if its confidence is ≥ 0.75, else
the semantic result (with the rule slots) if similarity ≥ 0.83, else
UNKNOWN with confidence 0 and empty slots. -/
def classify_hybrid (semantic_match : String → Intent × ℚ)
    (text : String) : HybridOutcome :=
  let rule_result := classify text
  if mkRat 3 4 ≤ rule_result.confidence then
    { rule_intent := intentValue rule_result.intent,
      rule_confidence := rule_result.confidence,
      semantic_intent := none, semantic_similarity := none,
      decision_source := "rule", intent_result := rule_result }
  else
    let sem := semantic_match text
    if mkRat 83 100 ≤ sem.2 then
      { rule_intent := intentValue rule_result.intent,
        rule_confidence := rule_result.confidence,
        semantic_intent := some (intentValue sem.1),
        semantic_similarity := some sem.2,
        decision_source := "semantic",
        intent_result := ⟨sem.1, sem.2, rule_result.slots, text⟩ }
    else
      { rule_intent := intentValue rule_result.intent,
        rule_confidence := rule_result.confidence,
        semantic_intent := some (intentValue sem.1),
        semantic_similarity := some sem.2,
        decision_source := "none",
        intent_result := ⟨UNKNOWN, 0, [], text⟩ }

/-! The execution controller (`core/execution_controller.py`).  The
outcomes of external subprocess calls are supplied by an explicit
environment; each handler reports the argv lists of the external
processes it actually started, and either a returned
`ExecutionResult` or an uncaught Python exception. -/

/-- Outcome of a `subprocess.Popen` call. -/
inductive SpawnOut where
  | ok
  | fileNotFound
  | raised (msg : String)
deriving DecidableEq, Repr

/-- Outcome of a blocking `subprocess.run` call with a timeout. -/
inductive RunOut where
  | completed (exitCode : Int) (stdout : String)
  | timedOut
  | raised (msg : String)
deriving DecidableEq, Repr

/-- Environment of external effects: process creation outcomes keyed
by argv, and the wall-clock strings used by GET_TIME / GET_DATE. -/
structure Env where
  spawn : List String → SpawnOut
  run : List String → RunOut
  timeStr : String
  dateStr : String

/-- `ExecutionResult` (timestamp omitted: no claim concerns it). -/
structure ExecutionResult where
  success : Bool
  message : String
  intent : Intent
  details : List (String × String) := []
deriving DecidableEq, Repr

/-- What a handler produced: a returned result or an uncaught
exception escaping to the dispatch boundary. -/
inductive HandlerRet where
  | ok (r : ExecutionResult)
  | exn (msg : String)
deriving DecidableEq, Repr

/-- A handler's observable behaviour: the external processes it
started, and its return/raise outcome. -/
structure HandlerOut where
  procs : List (List String)
  ret : HandlerRet
deriving DecidableEq, Repr

/-- Python falsiness of `slots.get(key)` for a string slot: absent
key or empty string. -/
def pyFalsyStr : Option String → Bool
  | none => true
  | some s => s.isEmpty

/-- Message text standing for the `str(e)` of a failed spawn. -/
def spawnExnMsg : SpawnOut → String
  | SpawnOut.ok => ""
  | SpawnOut.fileNotFound => "FileNotFoundError"
  | SpawnOut.raised m => m

/-- `_execute_open_app`: allowlist-gated application launch. -/
def execute_open_app (env : Env) (slots : List (String × String)) :
    HandlerOut :=
  let app_name := alookup "app_name" slots
  if pyFalsyStr app_name then
    ⟨[], HandlerRet.ok ⟨false, "No app name specified", OPEN_APP, []⟩⟩
  else
    let a := app_name.getD ""
    match alookup a ALLOWED_APPS with
    | none =>
      ⟨[], HandlerRet.ok
        ⟨false, "App \x27" ++ a ++ "\x27 not in allowed list", OPEN_APP, []⟩⟩
    | some executable =>
      match env.spawn [executable] with
      | SpawnOut.ok =>
        ⟨[[executable]], HandlerRet.ok
          ⟨true, "Opened " ++ a, OPEN_APP,
           [("app", a), ("executable", executable)]⟩⟩
      | SpawnOut.fileNotFound =>
        ⟨[], HandlerRet.ok
          ⟨false, "App \x27" ++ a ++ "\x27 not found on system", OPEN_APP, []⟩⟩
      | SpawnOut.raised m => ⟨[], HandlerRet.exn m⟩

/-- `_execute_close_app`: pkill by process name; the app name is
mapped through `ALLOWED_APPS` and falls back to the raw name; only
`TimeoutExpired` is caught. -/
def execute_close_app (env : Env) (slots : List (String × String)) :
    HandlerOut :=
  let app_name := alookup "app_name" slots
  if pyFalsyStr app_name then
    ⟨[], HandlerRet.ok ⟨false, "No app name specified", CLOSE_APP, []⟩⟩
  else
    let a := app_name.getD ""
    let process_name := (alookup a ALLOWED_APPS).getD a
    match env.run ["pkill", "-f", process_name] with
    | RunOut.completed _ _ =>
      ⟨[["pkill", "-f", process_name]], HandlerRet.ok
        ⟨true, "Closed " ++ a, CLOSE_APP,
         [("app", a), ("process", process_name)]⟩⟩
    | RunOut.timedOut =>
      ⟨[["pkill", "-f", process_name]], HandlerRet.ok
        ⟨false, "Close operation timed out", CLOSE_APP, []⟩⟩
    | RunOut.raised m => ⟨[], HandlerRet.exn m⟩

/-- `_execute_search_web`: missing query defaults to the empty
string; the browser is then opened on the constructed URL; any
exception is caught (`except Exception`). -/
def execute_search_web (env : Env) (slots : List (String × String)) :
    HandlerOut :=
  let query := (alookup "query" slots).getD ""
  let search_url :=
    "https://www.google.com/search?q="
      ++ (⟨pyReplace " ".data "+".data query.data⟩ : String)
  match env.spawn ["xdg-open", search_url] with
  | SpawnOut.ok =>
    ⟨[["xdg-open", search_url]], HandlerRet.ok
      ⟨true, "Searching for: " ++ query, SEARCH_WEB, [("query", query)]⟩⟩
  | outcome =>
    ⟨[], HandlerRet.ok
      ⟨false, "Search failed: " ++ spawnExnMsg outcome, SEARCH_WEB, []⟩⟩

/-- `_execute_play_music`: `playerctl play` with `check=True`; any
exception (non-zero exit, timeout, missing binary) is caught. -/
def execute_play_music (env : Env) (_slots : List (String × String)) :
    HandlerOut :=
  match env.run ["playerctl", "play"] with
  | RunOut.completed 0 _ =>
    ⟨[["playerctl", "play"]], HandlerRet.ok ⟨true, "Playing music", PLAY_MUSIC, []⟩⟩
  | RunOut.completed _ _ =>
    ⟨[["playerctl", "play"]], HandlerRet.ok ⟨false, "No media player found", PLAY_MUSIC, []⟩⟩
  | RunOut.timedOut =>
    ⟨[["playerctl", "play"]], HandlerRet.ok ⟨false, "No media player found", PLAY_MUSIC, []⟩⟩
  | RunOut.raised _ =>
    ⟨[], HandlerRet.ok ⟨false, "No media player found", PLAY_MUSIC, []⟩⟩

/-- `_execute_stop_music`: `playerctl pause`, same handling. -/
def execute_stop_music (env : Env) (_slots : List (String × String)) :
    HandlerOut :=
  match env.run ["playerctl", "pause"] with
  | RunOut.completed 0 _ =>
    ⟨[["playerctl", "pause"]], HandlerRet.ok ⟨true, "Stopped music", STOP_MUSIC, []⟩⟩
  | RunOut.completed _ _ =>
    ⟨[["playerctl", "pause"]], HandlerRet.ok ⟨false, "No media player found", STOP_MUSIC, []⟩⟩
  | RunOut.timedOut =>
    ⟨[["playerctl", "pause"]], HandlerRet.ok ⟨false, "No media player found", STOP_MUSIC, []⟩⟩
  | RunOut.raised _ =>
    ⟨[], HandlerRet.ok ⟨false, "No media player found", STOP_MUSIC, []⟩⟩

/-- `_execute_get_time`. -/
def execute_get_time (env : Env) : HandlerOut :=
  ⟨[], HandlerRet.ok
    ⟨true, "The time is " ++ env.timeStr, GET_TIME, [("time", env.timeStr)]⟩⟩

/-- `_execute_get_date`. -/
def execute_get_date (env : Env) : HandlerOut :=
  ⟨[], HandlerRet.ok
    ⟨true, "Today is " ++ env.dateStr, GET_DATE, [("date", env.dateStr)]⟩⟩

/-- `_execute_system_info`: `hostname`, stdout stripped; any
exception is caught. -/
def execute_system_info (env : Env) : HandlerOut :=
  match env.run ["hostname"] with
  | RunOut.completed _ out =>
    let hostname := pyStripS out
    ⟨[["hostname"]], HandlerRet.ok
      ⟨true, "System: " ++ hostname, SYSTEM_INFO, [("hostname", hostname)]⟩⟩
  | RunOut.timedOut =>
    ⟨[["hostname"]], HandlerRet.ok ⟨false, "Could not get system info", SYSTEM_INFO, []⟩⟩
  | RunOut.raised _ =>
    ⟨[], HandlerRet.ok ⟨false, "Could not get system info", SYSTEM_INFO, []⟩⟩

/-- `_execute_greeting`. -/
def execute_greeting : HandlerOut :=
  ⟨[], HandlerRet.ok ⟨true, "Hello! How can I help you?", GREETING, []⟩⟩

/-- `_execute_exit`. -/
def execute_exit : HandlerOut :=
  ⟨[], HandlerRet.ok ⟨true, "Goodbye!", EXIT, []⟩⟩

/-- `_execute_play_youtube`: missing query is a handled failure;
otherwise Brave is launched, with an xdg-open fallback on
`FileNotFoundError`. -/
def execute_play_youtube (env : Env) (slots : List (String × String)) :
    HandlerOut :=
  let query := alookup "query" slots
  if pyFalsyStr query then
    ⟨[], HandlerRet.ok ⟨false, "No video query specified", PLAY_YOUTUBE, []⟩⟩
  else
    let q := query.getD ""
    let youtube_url :=
      "https://www.youtube.com/results?search_query="
        ++ (⟨pyReplace " ".data "+".data q.data⟩ : String)
    match env.spawn ["brave-browser", "--new-window", youtube_url] with
    | SpawnOut.ok =>
      ⟨[["brave-browser", "--new-window", youtube_url]], HandlerRet.ok
        ⟨true, "Playing " ++ q ++ " on YouTube", PLAY_YOUTUBE,
         [("query", q), ("url", youtube_url)]⟩⟩
    | SpawnOut.fileNotFound =>
      match env.spawn ["xdg-open", youtube_url] with
      | SpawnOut.ok =>
        ⟨[["xdg-open", youtube_url]], HandlerRet.ok
          ⟨true, "Playing " ++ q ++ " on YouTube", PLAY_YOUTUBE,
           [("query", q), ("url", youtube_url)]⟩⟩
      | _ =>
        ⟨[], HandlerRet.ok ⟨false, "Could not open browser", PLAY_YOUTUBE, []⟩⟩
    | SpawnOut.raised m => ⟨[], HandlerRet.exn m⟩

/-- `_execute_search_youtube`: same shape as `_execute_play_youtube`
with its own messages. -/
def execute_search_youtube (env : Env) (slots : List (String × String)) :
    HandlerOut :=
  let query := alookup "query" slots
  if pyFalsyStr query then
    ⟨[], HandlerRet.ok ⟨false, "No search query specified", SEARCH_YOUTUBE, []⟩⟩
  else
    let q := query.getD ""
    let youtube_url :=
      "https://www.youtube.com/results?search_query="
        ++ (⟨pyReplace " ".data "+".data q.data⟩ : String)
    match env.spawn ["brave-browser", "--new-window", youtube_url] with
    | SpawnOut.ok =>
      ⟨[["brave-browser", "--new-window", youtube_url]], HandlerRet.ok
        ⟨true, "Searching YouTube for " ++ q, SEARCH_YOUTUBE,
         [("query", q), ("url", youtube_url)]⟩⟩
    | SpawnOut.fileNotFound =>
      match env.spawn ["xdg-open", youtube_url] with
      | SpawnOut.ok =>
        ⟨[["xdg-open", youtube_url]], HandlerRet.ok
          ⟨true, "Searching YouTube for " ++ q, SEARCH_YOUTUBE,
           [("query", q), ("url", youtube_url)]⟩⟩
      | _ =>
        ⟨[], HandlerRet.ok ⟨false, "Could not open browser", SEARCH_YOUTUBE, []⟩⟩
    | SpawnOut.raised m => ⟨[], HandlerRet.exn m⟩

/-- The per-intent dispatch chain of `execute_intent` (the `if/elif`
ladder); UNKNOWN is the only intent that reaches the final `else`. -/
def dispatch (env : Env) (intent : Intent)
    (slots : List (String × String)) : HandlerOut :=
  match intent with
  | OPEN_APP => execute_open_app env slots
  | CLOSE_APP => execute_close_app env slots
  | SEARCH_WEB => execute_search_web env slots
  | PLAY_MUSIC => execute_play_music env slots
  | STOP_MUSIC => execute_stop_music env slots
  | GET_TIME => execute_get_time env
  | GET_DATE => execute_get_date env
  | SYSTEM_INFO => execute_system_info env
  | GREETING => execute_greeting
  | EXIT => execute_exit
  | PLAY_YOUTUBE => execute_play_youtube env slots
  | SEARCH_YOUTUBE => execute_search_youtube env slots
  | UNKNOWN =>
    ⟨[], HandlerRet.ok
      ⟨false, "No handler for intent: " ++ intentValue UNKNOWN, UNKNOWN, []⟩⟩

/-- `execute_intent`: validate against the capability registry, then
dispatch inside a try/except that converts any handler exception into
a failed `ExecutionResult`.  Returns the final result together with
the external processes started. -/
def execute_intent (env : Env) (intent_result : IntentResult) :
    List (List String) × ExecutionResult :=
  let intent := intent_result.intent
  let slots := intent_result.slots
  if !(validate_capability intent) then
    ([], ⟨false, "Intent " ++ intentValue intent ++ " cannot be executed",
          intent, []⟩)
  else
    let h := dispatch env intent slots
    match h.ret with
    | HandlerRet.ok res => (h.procs, res)
    | HandlerRet.exn m =>
      (h.procs, ⟨false, "Execution error: " ++ m, intent, []⟩)

/-! Shared concrete inputs for witnesses. -/

/-- A concrete environment in which every spawn succeeds and every
blocking call completes with exit code 0. -/
def envNull : Env :=
  ⟨fun _ => SpawnOut.ok, fun _ => RunOut.completed 0 "",
   "12:00 PM", "Monday, January 01, 2026"⟩

/-- A concrete environment whose blocking calls complete with exit
code 1 (e.g. `pkill` matching no process). -/
def envExit1 : Env :=
  ⟨fun _ => SpawnOut.ok, fun _ => RunOut.completed 1 "",
   "12:00 PM", "Monday, January 01, 2026"⟩

/-- A concrete semantic matcher reporting high similarity. -/
def semHigh : String → Intent × ℚ := fun _ => (GET_TIME, mkRat 9 10)

/-- A concrete semantic matcher reporting low similarity. -/
def semLow : String → Intent × ℚ := fun _ => (GET_TIME, mkRat 1 2)

/-! Claim theorems. -/

/-- Claim C1 (refuted, evidence): the registry `CAPABILITIES` has no
entry at all for `PLAY_YOUTUBE` or `SEARCH_YOUTUBE`, although both
are non-UNKNOWN members of the `Intent` enumeration: `get_capability`
fails (Python: raises `KeyError`) and `validate_capability` returns
false for them, so their executable-looking handlers are unreachable
through `execute_intent`. -/
theorem registry_missing_youtube_entries :
    get_capability PLAY_YOUTUBE = none ∧
    get_capability SEARCH_YOUTUBE = none ∧
    (CAPABILITIES.filter (fun p => decide (p.1 = PLAY_YOUTUBE))).length = 0 ∧
    (CAPABILITIES.filter (fun p => decide (p.1 = SEARCH_YOUTUBE))).length = 0 ∧
    validate_capability PLAY_YOUTUBE = false ∧
    validate_capability SEARCH_YOUTUBE = false := by
  decide

/-- Claim C2: `execute_intent` validates the intent before any
dispatch; whenever `validate_capability` is false — and it is always
false for UNKNOWN — it returns a failed `ExecutionResult` carrying
the denial message, no per-intent handler runs, and no external
process is started. -/
theorem execute_intent_refuses_unvalidated :
    validate_capability UNKNOWN = false ∧
    ∀ (env : Env) (r : IntentResult),
      validate_capability r.intent = false →
      execute_intent env r =
        ([], ⟨false, "Intent " ++ intentValue r.intent ++ " cannot be executed",
              r.intent, []⟩) := by
  refine ⟨by decide, ?_⟩
  intro env r h
  unfold execute_intent
  simp [h]

/-- Witness for C2: a concrete UNKNOWN classification in a concrete
environment is refused. -/
theorem execute_intent_refuses_unvalidated_witness :
    execute_intent envNull ⟨UNKNOWN, 1, [], "what"⟩ =
      ([], ⟨false, "Intent UNKNOWN cannot be executed", UNKNOWN, []⟩) := by
  exact execute_intent_refuses_unvalidated.2 envNull ⟨UNKNOWN, 1, [], "what"⟩
    execute_intent_refuses_unvalidated.1

/-- Claim C3: `decide_action` routes exactly by the documented
thresholds: UNKNOWN always rejects; `c < 0.6` rejects; `0.6 ≤ c <
0.75` asks for confirmation; `c ≥ 0.75` executes — with both
boundaries inclusive on the higher branch. -/
theorem decide_action_thresholds (r : IntentResult) :
    (r.intent = UNKNOWN →
      decide_action r = ("I did not understand that. Could you repeat?", false)) ∧
    (r.intent ≠ UNKNOWN → r.confidence < mkRat 3 5 →
      decide_action r = ("I\x27m not sure what you said. Please repeat.", false)) ∧
    (r.intent ≠ UNKNOWN → mkRat 3 5 ≤ r.confidence → r.confidence < mkRat 3 4 →
      decide_action r = ("Did you want me to " ++ get_action_description r ++ "?", false)) ∧
    (r.intent ≠ UNKNOWN → mkRat 3 4 ≤ r.confidence →
      decide_action r = ("Intent detected: " ++ intentValue r.intent, true)) := by
  unfold decide_action
  refine ⟨fun h => by rw [if_pos h],
          fun h hc => by rw [if_neg h, if_pos hc],
          fun h h1 h2 => by rw [if_neg h, if_neg (not_lt.mpr h1), if_pos h2],
          fun h h1 => ?_⟩
  have h0 : ¬(r.confidence < mkRat 3 5) := by
    refine not_lt.mpr (le_trans ?_ h1)
    decide
  rw [if_neg h, if_neg h0, if_neg (not_lt.mpr h1)]

/-- Witness for C3: all four branches at concrete classifications,
including the exact boundary confidences 0.6 (confirm, not reject)
and 0.75 (execute, not confirm). -/
theorem decide_action_thresholds_witness :
    decide_action ⟨UNKNOWN, 0, [], "x"⟩ =
      ("I did not understand that. Could you repeat?", false) ∧
    decide_action ⟨GREETING, mkRat 1 2, [], "x"⟩ =
      ("I\x27m not sure what you said. Please repeat.", false) ∧
    decide_action ⟨GREETING, mkRat 3 5, [], "x"⟩ =
      ("Did you want me to greet you?", false) ∧
    decide_action ⟨GREETING, mkRat 3 4, [], "x"⟩ =
      ("Intent detected: GREETING", true) := by
  refine ⟨(decide_action_thresholds _).1 rfl,
          (decide_action_thresholds _).2.1 (by decide) (by decide),
          ?_, ?_⟩
  · exact (decide_action_thresholds _).2.2.1 (by decide) (by decide) (by decide)
  · exact (decide_action_thresholds _).2.2.2 (by decide) (by decide)

/-- Claim C4: the hybrid cascade is a three-state decision: rule
confidence ≥ 0.75 accepts the rule result unchanged (source "rule",
semantic matcher never consulted — the outcome is independent of it);
otherwise semantic similarity ≥ the acceptance threshold (0.83 in the
code) accepts the semantic intent with the similarity as confidence
and exactly the rule classifier's slots (source "semantic");
otherwise UNKNOWN with confidence 0 and empty slots (source
"none"). -/
theorem classify_hybrid_three_state (sem : String → Intent × ℚ) (t : String) :
    (mkRat 3 4 ≤ (classify t).confidence →
       (classify_hybrid sem t).intent_result = classify t ∧
       (classify_hybrid sem t).decision_source = "rule" ∧
       ∀ sem2, classify_hybrid sem2 t = classify_hybrid sem t) ∧
    ((classify t).confidence < mkRat 3 4 → mkRat 83 100 ≤ (sem t).2 →
       (classify_hybrid sem t).intent_result =
         ⟨(sem t).1, (sem t).2, (classify t).slots, t⟩ ∧
       (classify_hybrid sem t).decision_source = "semantic") ∧
    ((classify t).confidence < mkRat 3 4 → (sem t).2 < mkRat 83 100 →
       (classify_hybrid sem t).intent_result = ⟨UNKNOWN, 0, [], t⟩ ∧
       (classify_hybrid sem t).decision_source = "none") := by
  refine ⟨fun h => ?_, fun h1 h2 => ?_, fun h1 h2 => ?_⟩
  · have e : ∀ s2 : String → Intent × ℚ,
        classify_hybrid s2 t =
          ⟨intentValue (classify t).intent, (classify t).confidence,
           none, none, "rule", classify t⟩ := by
      intro s2
      simp only [classify_hybrid]
      rw [if_pos h]
    exact ⟨by rw [e sem], by rw [e sem], fun s2 => by rw [e s2, e sem]⟩
  · simp only [classify_hybrid]
    rw [if_neg (not_le.mpr h1), if_pos h2]
    exact ⟨rfl, rfl⟩
  · simp only [classify_hybrid]
    rw [if_neg (not_le.mpr h1), if_neg (not_le.mpr h2)]
    exact ⟨rfl, rfl⟩

/-- Witness for C4: all three branches at concrete inputs — the
high-confidence "open firefox" takes the rule path whatever the
matcher says, while low-scoring "zzz" takes the semantic path under a
high-similarity matcher and the UNKNOWN path under a low-similarity
one. -/
theorem classify_hybrid_three_state_witness :
    ((classify_hybrid semLow "open firefox").intent_result = classify "open firefox" ∧
     (classify_hybrid semLow "open firefox").decision_source = "rule" ∧
     ∀ sem2, classify_hybrid sem2 "open firefox" = classify_hybrid semLow "open firefox") ∧
    ((classify_hybrid semHigh "zzz").intent_result =
       ⟨GET_TIME, mkRat 9 10, [], "zzz"⟩ ∧
     (classify_hybrid semHigh "zzz").decision_source = "semantic") ∧
    ((classify_hybrid semLow "zzz").intent_result = ⟨UNKNOWN, 0, [], "zzz"⟩ ∧
     (classify_hybrid semLow "zzz").decision_source = "none") := by
  refine ⟨(classify_hybrid_three_state semLow "open firefox").1 (by decide),
          ?_, ?_⟩
  · exact (classify_hybrid_three_state semHigh "zzz").2.1 (by decide) (by decide)
  · exact (classify_hybrid_three_state semLow "zzz").2.2 (by decide) (by decide)

/-- Claim C5 (refuted for SEARCH_WEB): with the query slot missing,
`_execute_search_web` defaults the query to the empty string and
proceeds — in an environment where the launch succeeds it starts the
browser on the empty-query search URL and reports success, instead of
returning a handled failure. -/
theorem search_web_missing_query_proceeds :
    execute_search_web envNull [] =
      ⟨[["xdg-open", "https://www.google.com/search?q="]],
       HandlerRet.ok ⟨true, "Searching for: ", SEARCH_WEB, [("query", "")]⟩⟩ := by
  decide

/-- Claim C5 (amended): for PLAY_YOUTUBE and SEARCH_YOUTUBE a missing
query slot is a handled failure: the handler returns success=false,
starts no browser process and raises no exception. -/
theorem youtube_missing_query_handled (env : Env)
    (slots : List (String × String))
    (h : alookup "query" slots = none) :
    execute_play_youtube env slots =
      ⟨[], HandlerRet.ok ⟨false, "No video query specified", PLAY_YOUTUBE, []⟩⟩ ∧
    execute_search_youtube env slots =
      ⟨[], HandlerRet.ok ⟨false, "No search query specified", SEARCH_YOUTUBE, []⟩⟩ := by
  constructor
  · simp [execute_play_youtube, h, pyFalsyStr]
  · simp [execute_search_youtube, h, pyFalsyStr]

/-- Witness for the amended C5 at concrete empty slots and a concrete
environment. -/
theorem youtube_missing_query_handled_witness :
    execute_play_youtube envNull [] =
      ⟨[], HandlerRet.ok ⟨false, "No video query specified", PLAY_YOUTUBE, []⟩⟩ ∧
    execute_search_youtube envNull [] =
      ⟨[], HandlerRet.ok ⟨false, "No search query specified", SEARCH_YOUTUBE, []⟩⟩ :=
  youtube_missing_query_handled envNull [] rfl

/-- Claim C6: OPEN_APP with an `app_name` slot absent or naming an
app outside `ALLOWED_APPS` always fails (success=false) without
starting any external process — at the handler level and through
`execute_intent`. -/
theorem open_app_denied_outside_allowlist :
    (∀ (env : Env) (slots : List (String × String)),
      (∀ a, alookup "app_name" slots = some a → alookup a ALLOWED_APPS = none) →
      (execute_open_app env slots).procs = [] ∧
      ∃ m, (execute_open_app env slots).ret =
        HandlerRet.ok ⟨false, m, OPEN_APP, []⟩) ∧
    (∀ (env : Env) (r : IntentResult), r.intent = OPEN_APP →
      (∀ a, alookup "app_name" r.slots = some a → alookup a ALLOWED_APPS = none) →
      (execute_intent env r).1 = [] ∧ (execute_intent env r).2.success = false) := by
  have key : ∀ (env : Env) (slots : List (String × String)),
      (∀ a, alookup "app_name" slots = some a → alookup a ALLOWED_APPS = none) →
      execute_open_app env slots =
          ⟨[], HandlerRet.ok ⟨false, "No app name specified", OPEN_APP, []⟩⟩ ∨
      ∃ a, execute_open_app env slots =
          ⟨[], HandlerRet.ok
            ⟨false, "App \x27" ++ a ++ "\x27 not in allowed list", OPEN_APP, []⟩⟩ := by
    intro env slots hs
    cases hl : alookup "app_name" slots with
    | none =>
      left
      simp [execute_open_app, hl, pyFalsyStr]
    | some a =>
      by_cases he : a.isEmpty
      · left
        simp [execute_open_app, hl, pyFalsyStr, he]
      · right
        refine ⟨a, ?_⟩
        simp [execute_open_app, hl, pyFalsyStr, he, hs a hl]
  constructor
  · intro env slots hs
    rcases key env slots hs with h | ⟨a, h⟩ <;> rw [h]
    · exact ⟨rfl, "No app name specified", rfl⟩
    · exact ⟨rfl, "App \x27" ++ a ++ "\x27 not in allowed list", rfl⟩
  · intro env r hr hs
    have hv : validate_capability OPEN_APP = true := by decide
    unfold execute_intent
    rw [hr]
    simp only [hv, Bool.not_true, Bool.false_eq_true, if_false, dispatch]
    rcases key env r.slots hs with h | ⟨a, h⟩ <;> rw [h]
    · exact ⟨rfl, rfl⟩
    · exact ⟨rfl, rfl⟩

/-- Witness for C6: "zoom" is not in the allowlist; both the handler
and the controller refuse it in a concrete environment. -/
theorem open_app_denied_outside_allowlist_witness :
    ((execute_open_app envNull [("app_name", "zoom")]).procs = [] ∧
     ∃ m, (execute_open_app envNull [("app_name", "zoom")]).ret =
       HandlerRet.ok ⟨false, m, OPEN_APP, []⟩) ∧
    ((execute_intent envNull ⟨OPEN_APP, 1, [("app_name", "zoom")], "open zoom"⟩).1 = [] ∧
     (execute_intent envNull ⟨OPEN_APP, 1, [("app_name", "zoom")], "open zoom"⟩).2.success = false) := by
  constructor
  · exact open_app_denied_outside_allowlist.1 envNull [("app_name", "zoom")]
      (by intro a ha; cases ha; decide)
  · exact open_app_denied_outside_allowlist.2 envNull
      ⟨OPEN_APP, 1, [("app_name", "zoom")], "open zoom"⟩ rfl
      (by intro a ha; cases ha; decide)

/-- Claim C10: the CLOSE_APP handler maps the app name through
`ALLOWED_APPS`, falling back to the raw name when unmapped (it never
consults `ALLOWED_PROCESSES`); whenever the pkill subprocess
completes within its timeout it reports success regardless of the
exit status, and only a timeout yields success=false. -/
theorem close_app_pkill_behaviour (env : Env)
    (slots : List (String × String)) (a : String)
    (ha : alookup "app_name" slots = some a) (hne : a.isEmpty = false) :
    (alookup a ALLOWED_APPS = none → (alookup a ALLOWED_APPS).getD a = a) ∧
    (∀ code out,
      env.run ["pkill", "-f", (alookup a ALLOWED_APPS).getD a] =
          RunOut.completed code out →
      execute_close_app env slots =
        ⟨[["pkill", "-f", (alookup a ALLOWED_APPS).getD a]],
         HandlerRet.ok ⟨true, "Closed " ++ a, CLOSE_APP,
           [("app", a), ("process", (alookup a ALLOWED_APPS).getD a)]⟩⟩) ∧
    (env.run ["pkill", "-f", (alookup a ALLOWED_APPS).getD a] = RunOut.timedOut →
      execute_close_app env slots =
        ⟨[["pkill", "-f", (alookup a ALLOWED_APPS).getD a]],
         HandlerRet.ok ⟨false, "Close operation timed out", CLOSE_APP, []⟩⟩) := by
  refine ⟨fun h => by rw [h]; rfl, fun code out hrun => ?_, fun hrun => ?_⟩
  · simp [execute_close_app, ha, pyFalsyStr, hne, hrun]
  · simp [execute_close_app, ha, pyFalsyStr, hne, hrun]

/-- Witness for C10: "spotify" is in neither `ALLOWED_APPS` nor
`ALLOWED_PROCESSES`, yet pkill is run on the raw name and an exit
status of 1 (no process matched) still reports success. -/
theorem close_app_pkill_behaviour_witness :
    ALLOWED_PROCESSES.contains "spotify" = false ∧
    alookup "spotify" ALLOWED_APPS = none ∧
    execute_close_app envExit1 [("app_name", "spotify")] =
      ⟨[["pkill", "-f", "spotify"]],
       HandlerRet.ok ⟨true, "Closed spotify", CLOSE_APP,
         [("app", "spotify"), ("process", "spotify")]⟩⟩ := by
  refine ⟨by decide, by decide, ?_⟩
  exact (close_app_pkill_behaviour envExit1 [("app_name", "spotify")]
    "spotify" rfl rfl).2.1 1 "" rfl

/-! Supporting lemmas for the YouTube slot-extraction claim. -/

/-- Membership is preserved backwards through `dropWhile`. -/
theorem mem_of_mem_dropWhile {c : Char} (p : Char → Bool) :
    ∀ {l : List Char}, c ∈ l.dropWhile p → c ∈ l := by
  intro l
  induction l with
  | nil => simp [List.dropWhile]
  | cons d rest ih =>
    intro h
    rw [List.dropWhile_cons] at h
    by_cases hp : p d = true
    · rw [if_pos hp] at h
      exact List.mem_cons_of_mem d (ih h)
    · rw [if_neg hp] at h
      exact h

/-- Membership is preserved backwards through `pyStrip`. -/
theorem mem_of_mem_pyStrip {c : Char} {l : List Char}
    (h : c ∈ pyStrip l) : c ∈ l := by
  unfold pyStrip at h
  rw [List.mem_reverse] at h
  have h2 := mem_of_mem_dropWhile isWS h
  rw [List.mem_reverse] at h2
  exact mem_of_mem_dropWhile isWS h2

/-- Replacing the single-character pattern `[c]` with the empty
string removes every occurrence of `c` (for sufficient fuel). -/
theorem not_mem_pyReplaceGo_single (c : Char) :
    ∀ (n : Nat) (s : List Char), s.length ≤ n → c ∉ pyReplaceGo [c] [] n s := by
  intro n
  induction n with
  | zero =>
    intro s hlen
    have : s = [] := List.eq_nil_of_length_eq_zero (Nat.le_zero.mp hlen)
    subst this
    simp [pyReplaceGo]
  | succ n ih =>
    intro s hlen
    cases s with
    | nil => simp [pyReplaceGo]
    | cons d rest =>
      have hrest : rest.length ≤ n := by
        simp only [List.length_cons] at hlen
        omega
      by_cases he : c = d
      · subst he
        have hp : ([c].isPrefixOf (c :: rest)) = true := by
          simp [List.isPrefixOf]
        simp only [pyReplaceGo, hp, if_true, List.nil_append, List.drop_zero]
        exact ih rest hrest
      · have hp : ([c].isPrefixOf (d :: rest)) = false := by
          simp [List.isPrefixOf]
          exact he
        simp only [pyReplaceGo, hp, Bool.false_eq_true, if_false]
        intro hmem
        rcases List.mem_cons.mp hmem with h | h
        · exact he h
        · exact ih rest hrest h

/-- The single-character pattern case of `pyReplace`. -/
theorem not_mem_pyReplace_single (c : Char) (s : List Char) :
    c ∉ pyReplace [c] [] s :=
  not_mem_pyReplaceGo_single c s.length s (Nat.le_refl _)

/-- The query produced for the YouTube intents never contains the
character `a`: the final trigger replaced is the bare `"a"`, and
stripping whitespace afterwards introduces nothing. -/
theorem stripTriggers_youtube_no_a (text : List Char) :
    'a' ∉ stripTriggers youtubeTriggers text := by
  intro hmem
  unfold stripTriggers at hmem
  have hsplit : youtubeTriggers =
      ["play", "start", "put on", "search", "on youtube", "youtube",
       "video", "please", "can you", "could you", "find", "for"] ++ ["a"] := rfl
  rw [hsplit, List.foldl_append, List.foldl_cons, List.foldl_nil] at hmem
  have hd : ("a" : String).data = ['a'] := rfl
  rw [hd] at hmem
  exact not_mem_pyReplace_single 'a' _ (mem_of_mem_pyStrip hmem)

set_option maxHeartbeats 1000000 in
/-- Claim C9: slot extraction for PLAY_YOUTUBE and SEARCH_YOUTUBE
strips trigger phrases by plain substring replacement, ending with
the bare single-letter trigger `"a"`; consequently any produced
query slot contains no occurrence of the character `a`. -/
theorem youtube_query_slot_has_no_a (text : List Char) (i : Intent)
    (hi : i = PLAY_YOUTUBE ∨ i = SEARCH_YOUTUBE) (q : String)
    (hq : alookup "query" (extract_slots text i) = some q) :
    'a' ∉ q.data := by
  have e : extract_slots text i = ytQuerySlot text i := by
    rcases hi with h | h <;> subst h
    · show appNameSlot text PLAY_YOUTUBE ++ webQuerySlot text PLAY_YOUTUBE
          ++ ytQuerySlot text PLAY_YOUTUBE = ytQuerySlot text PLAY_YOUTUBE
      rw [show appNameSlot text PLAY_YOUTUBE = [] from rfl,
          show webQuerySlot text PLAY_YOUTUBE = [] from rfl,
          List.nil_append, List.nil_append]
    · show appNameSlot text SEARCH_YOUTUBE ++ webQuerySlot text SEARCH_YOUTUBE
          ++ ytQuerySlot text SEARCH_YOUTUBE = ytQuerySlot text SEARCH_YOUTUBE
      rw [show appNameSlot text SEARCH_YOUTUBE = [] from rfl,
          show webQuerySlot text SEARCH_YOUTUBE = [] from rfl,
          List.nil_append, List.nil_append]
  rw [e] at hq
  unfold ytQuerySlot at hq
  rw [if_pos hi] at hq
  cases hem : (stripTriggers youtubeTriggers text).isEmpty
  case true =>
    rw [hem] at hq
    simp [alookup] at hq
  case false =>
    rw [hem] at hq
    simp [alookup] at hq
    subst hq
    have hgen : ∀ (l : List Char), 'a' ∉ l → 'a' ∉ ((⟨l⟩ : String)).data :=
      fun _ h => h
    exact hgen _ (stripTriggers_youtube_no_a text)

/-- Witness for C9: "play despacito" yields the query "despcito",
which indeed contains no `a`. -/
theorem youtube_query_slot_has_no_a_witness :
    alookup "query" (extract_slots "play despacito".data PLAY_YOUTUBE) =
      some "despcito" ∧
    'a' ∉ "despcito".data := by
  have h : alookup "query" (extract_slots "play despacito".data PLAY_YOUTUBE) =
      some "despcito" := by decide
  exact ⟨h, youtube_query_slot_has_no_a "play despacito".data PLAY_YOUTUBE
    (Or.inl rfl) "despcito" h⟩

/-- Claim C7: whenever the best (clamped) score falls below the
minimum-confidence floor 0.4 — in particular when no intent scores
above 0, in which case `bestScore` is 0 — `classify` returns UNKNOWN
with confidence equal to the best score and empty slots. -/
theorem classify_below_floor_unknown (t : String)
    (h : bestScore t < mkRat 2 5) :
    classify t = ⟨UNKNOWN, bestScore t, [], t⟩ := by
  unfold bestScore at h ⊢
  unfold classify
  cases hm : maxByFirst (scoresOf t) with
  | none => rfl
  | some p =>
    obtain ⟨best, s⟩ := p
    rw [hm] at h
    have h2 : s < mkRat 2 5 := h
    have hs1 : s ≤ 1 := le_of_lt (lt_of_lt_of_le h2 (by decide))
    have h1 : min s 1 = s := min_eq_left hs1
    show (if min s 1 < mkRat 2 5 then
            (⟨UNKNOWN, min s 1, [], t⟩ : IntentResult)
          else ⟨best, min s 1, extract_slots (normalizedOf t) best, t⟩) =
        ⟨UNKNOWN, s, [], t⟩
    rw [h1, if_pos h2]

/-- Witness for C7: "halt" scores at most 0.3 everywhere, below the
floor, so it is classified UNKNOWN with that confidence and no
slots. -/
theorem classify_below_floor_unknown_witness :
    bestScore "halt" = mkRat 3 10 ∧
    classify "halt" = ⟨UNKNOWN, mkRat 3 10, [], "halt"⟩ := by
  have hb : bestScore "halt" = mkRat 3 10 := by decide
  have h := classify_below_floor_unknown "halt" (by decide)
  rw [hb] at h
  exact ⟨hb, h⟩

/-! Supporting lemmas for the tie-break claim: `maxGo` models
Python's `max`, which replaces the running best only on a strictly
greater value, so the first key attaining the maximum wins. -/

/-- The running best never decreases. -/
theorem maxGo_ge_head : ∀ (l : List (Intent × ℚ)) (p : Intent × ℚ),
    p.2 ≤ (maxGo p l).2 := by
  intro l
  induction l with
  | nil => intro p; exact le_refl _
  | cons q rest ih =>
    intro p
    by_cases hpq : p.2 < q.2
    · simp only [maxGo, if_pos hpq]
      exact le_trans (le_of_lt hpq) (ih q)
    · simp only [maxGo, if_neg hpq]
      exact ih p

/-- The result of `maxGo` dominates every element of the list. -/
theorem maxGo_ge_mem : ∀ (l : List (Intent × ℚ)) (p q : Intent × ℚ),
    q ∈ l → q.2 ≤ (maxGo p l).2 := by
  intro l
  induction l with
  | nil => intro p q hq; simp at hq
  | cons x rest ih =>
    intro p q hq
    rcases List.mem_cons.mp hq with h | h
    · subst h
      by_cases hpx : p.2 < q.2
      · simp only [maxGo, if_pos hpx]
        exact maxGo_ge_head rest q
      · simp only [maxGo, if_neg hpx]
        exact le_trans (not_lt.mp hpx) (maxGo_ge_head rest p)
    · by_cases hpx : p.2 < x.2
      · simp only [maxGo, if_pos hpx]
        exact ih x q h
      · simp only [maxGo, if_neg hpx]
        exact ih p q h

/-- The result of `maxGo` is the head or an element of the list. -/
theorem maxGo_mem : ∀ (l : List (Intent × ℚ)) (p : Intent × ℚ),
    maxGo p l = p ∨ maxGo p l ∈ l := by
  intro l
  induction l with
  | nil => intro p; exact Or.inl rfl
  | cons x rest ih =>
    intro p
    by_cases hpx : p.2 < x.2
    · simp only [maxGo, if_pos hpx]
      rcases ih x with h | h
      · refine Or.inr ?_
        rw [h]
        exact List.mem_cons_self x rest
      · exact Or.inr (List.mem_cons_of_mem x h)
    · simp only [maxGo, if_neg hpx]
      rcases ih p with h | h
      · exact Or.inl h
      · exact Or.inr (List.mem_cons_of_mem x h)

/-- `maxGo` returns the FIRST element attaining the maximum: the list
`p :: l` splits around the result, and everything strictly before it
scores strictly less. -/
theorem maxGo_split : ∀ (l : List (Intent × ℚ)) (p : Intent × ℚ),
    ∃ l₁ l₂, p :: l = l₁ ++ (maxGo p l) :: l₂ ∧
      ∀ q ∈ l₁, q.2 < (maxGo p l).2 := by
  intro l
  induction l with
  | nil =>
    intro p
    exact ⟨[], [], rfl, by simp⟩
  | cons x rest ih =>
    intro p
    by_cases hpx : p.2 < x.2
    · simp only [maxGo, if_pos hpx]
      obtain ⟨l₁, l₂, heq, hlt⟩ := ih x
      refine ⟨p :: l₁, l₂, ?_, ?_⟩
      · rw [List.cons_append, ← heq]
      · intro q hq
        rcases List.mem_cons.mp hq with h | h
        · subst h
          exact lt_of_lt_of_le hpx (maxGo_ge_head rest x)
        · exact hlt q h
    · simp only [maxGo, if_neg hpx]
      obtain ⟨l₁, l₂, heq, hlt⟩ := ih p
      cases l₁ with
      | nil =>
        simp only [List.nil_append] at heq
        have hp : maxGo p rest = p := (List.cons.injEq _ _ _ _).mp heq |>.1.symm
        refine ⟨[], x :: rest, ?_, by simp⟩
        rw [hp, List.nil_append]
      | cons y l₁' =>
        simp only [List.cons_append, List.cons.injEq] at heq
        obtain ⟨hyp, hrest⟩ := heq
        subst hyp
        refine ⟨p :: x :: l₁', l₂, ?_, ?_⟩
        · rw [List.cons_append, List.cons_append, ← hrest]
        · intro q hq
          have hpm : p.2 < (maxGo p rest).2 :=
            hlt p (List.mem_cons_self p l₁')
          rcases List.mem_cons.mp hq with h | h
          · subst h; exact hpm
          · rcases List.mem_cons.mp h with h2 | h2
            · subst h2
              exact lt_of_le_of_lt (not_lt.mp hpx) hpm
            · exact hlt q (List.mem_cons_of_mem p h2)

/-- Every intent occurs in the enumeration list. -/
theorem mem_intentList (i : Intent) : i ∈ intentList := by
  cases i <;> decide

/-- The enumeration list is strictly sorted by enumeration index. -/
theorem intentList_sorted :
    intentList.Pairwise (fun a b => intentIdx a < intentIdx b) := by
  decide

/-- The scores list is strictly sorted by enumeration index: the
scoring loop iterates intents in enumeration order. -/
theorem scoresList_sorted (text : List Char) (words : List (List Char)) :
    (scoresList text words).Pairwise
      (fun a b => intentIdx a.1 < intentIdx b.1) := by
  unfold scoresList
  rw [List.pairwise_map]
  exact (intentList_sorted.filter _).filter _

/-- Characterisation of the elements of the scores list. -/
theorem mem_scoresList_iff (text : List Char) (words : List (List Char))
    (j : Intent) (s : ℚ) :
    (j, s) ∈ scoresList text words ↔
      j ≠ UNKNOWN ∧ 0 < score_intent text words j ∧
      s = score_intent text words j := by
  unfold scoresList
  constructor
  · intro h
    obtain ⟨i, hi, hpair⟩ := List.mem_map.mp h
    obtain ⟨hi2, hpos⟩ := List.mem_filter.mp hi
    obtain ⟨_, hne⟩ := List.mem_filter.mp hi2
    obtain ⟨rfl, rfl⟩ := Prod.mk.injEq .. |>.mp hpair.symm
    exact ⟨of_decide_eq_true hne, of_decide_eq_true hpos, rfl⟩
  · rintro ⟨hne, hpos, rfl⟩
    refine List.mem_map.mpr ⟨j, ?_, rfl⟩
    refine List.mem_filter.mpr ⟨List.mem_filter.mpr ⟨mem_intentList j, ?_⟩, ?_⟩
    · exact decide_eq_true hne
    · exact decide_eq_true hpos

/-- Claim C8: when several intents tie at the maximum score, the one
earliest in the `Intent` enumeration order is selected: the chosen
intent's score is the maximum, every intent strictly earlier in
enumeration order scores strictly less, and (being a function) the
classifier is deterministic even under ties. -/
theorem classify_tiebreak_first_in_enum_order (t : String)
    (best : Intent) (s : ℚ)
    (hm : maxByFirst (scoresOf t) = some (best, s)) :
    s = score_intent (normalizedOf t) (wordsOf t) best ∧
    best ≠ UNKNOWN ∧ 0 < s ∧
    (∀ j, j ≠ UNKNOWN → score_intent (normalizedOf t) (wordsOf t) j ≤ s) ∧
    (∀ j, j ≠ UNKNOWN → intentIdx j < intentIdx best →
      score_intent (normalizedOf t) (wordsOf t) j < s) ∧
    (mkRat 2 5 ≤ min s 1 → (classify t).intent = best) := by
  have hm2 : maxByFirst (scoresList (normalizedOf t) (wordsOf t)) = some (best, s) := hm
  cases hsl : scoresList (normalizedOf t) (wordsOf t) with
  | nil =>
    rw [hsl] at hm2
    exact absurd hm2 (by simp [maxByFirst])
  | cons p rest =>
    rw [hsl] at hm2
    have hmg : maxGo p rest = (best, s) := by
      simpa [maxByFirst] using hm2
    have hmem : (best, s) ∈ scoresList (normalizedOf t) (wordsOf t) := by
      rw [hsl]
      rcases maxGo_mem rest p with h | h
      · rw [hmg] at h
        rw [← h]
        exact List.mem_cons_self _ _
      · rw [hmg] at h
        exact List.mem_cons_of_mem p h
    obtain ⟨hbne, hbpos, hbs⟩ := (mem_scoresList_iff _ _ best s).mp hmem
    have hpos : 0 < s := hbs ▸ hbpos
    have hle : ∀ j, j ≠ UNKNOWN →
        score_intent (normalizedOf t) (wordsOf t) j ≤ s := by
      intro j hj
      by_cases hjpos : 0 < score_intent (normalizedOf t) (wordsOf t) j
      · have hjm : (j, score_intent (normalizedOf t) (wordsOf t) j) ∈
            scoresList (normalizedOf t) (wordsOf t) :=
          (mem_scoresList_iff _ _ j _).mpr ⟨hj, hjpos, rfl⟩
        rw [hsl] at hjm
        rcases List.mem_cons.mp hjm with h | h
        · have := maxGo_ge_head rest p
          rw [hmg, ← h] at this
          exact this
        · have := maxGo_ge_mem rest p _ h
          rw [hmg] at this
          exact this
      · exact le_trans (not_lt.mp hjpos) (le_of_lt hpos)
    refine ⟨hbs, hbne, hpos, hle, ?_, ?_⟩
    · intro j hj hidx
      by_cases hjpos : 0 < score_intent (normalizedOf t) (wordsOf t) j
      · obtain ⟨l₁, l₂, heq, hlt⟩ := maxGo_split rest p
        rw [hmg] at heq hlt
        have hjm : (j, score_intent (normalizedOf t) (wordsOf t) j) ∈
            scoresList (normalizedOf t) (wordsOf t) :=
          (mem_scoresList_iff _ _ j _).mpr ⟨hj, hjpos, rfl⟩
        rw [hsl, heq] at hjm
        rcases List.mem_append.mp hjm with h | h
        · exact hlt _ h
        · rcases List.mem_cons.mp h with h2 | h2
          · exfalso
            have : j = best := congrArg Prod.fst h2
            rw [this] at hidx
            exact lt_irrefl _ hidx
          · exfalso
            have hpw := scoresList_sorted (normalizedOf t) (wordsOf t)
            rw [hsl, heq] at hpw
            have h3 := (List.pairwise_append.mp hpw).2
            have h4 := (List.pairwise_cons.mp h3.1).1
            have h5 := h4 _ h2
            exact absurd hidx (not_lt.mpr (le_of_lt h5))
      · exact lt_of_le_of_lt (not_lt.mp hjpos) hpos
    · intro hge
      unfold classify
      rw [hm]
      show (if min s 1 < mkRat 2 5 then
              (⟨UNKNOWN, min s 1, [], t⟩ : IntentResult)
            else ⟨best, min s 1, extract_slots (normalizedOf t) best, t⟩).intent
          = best
      rw [if_neg (not_lt.mpr hge)]

/-- Witness for C8: on "firefox chrome" the intents OPEN_APP and
CLOSE_APP tie at score 0.5, and the earlier OPEN_APP is selected. -/
theorem classify_tiebreak_first_in_enum_order_witness :
    score_intent (normalizedOf "firefox chrome") (wordsOf "firefox chrome")
        OPEN_APP =
      score_intent (normalizedOf "firefox chrome") (wordsOf "firefox chrome")
        CLOSE_APP ∧
    maxByFirst (scoresOf "firefox chrome") = some (OPEN_APP, mkRat 1 2) ∧
    score_intent (normalizedOf "firefox chrome") (wordsOf "firefox chrome")
        CLOSE_APP ≤ mkRat 1 2 ∧
    (classify "firefox chrome").intent = OPEN_APP := by
  have hm : maxByFirst (scoresOf "firefox chrome") =
      some (OPEN_APP, mkRat 1 2) := by decide
  have h := classify_tiebreak_first_in_enum_order "firefox chrome"
    OPEN_APP (mkRat 1 2) hm
  exact ⟨by decide, hm, h.2.2.2.1 CLOSE_APP (by decide), h.2.2.2.2.2 (by decide)⟩

end Assistant
